import Mathlib

/-!
Shallow embedding of the Deep-Live-Cam API core:
the tiered admission gate (src/api/tier.py), the priority job queue and its
single worker (src/api/queue.py), and the submission endpoints
(src/api/routers/swap.py).  External collaborators (cv2 video capture and
writer, the face-analyser and face-swapper modules, the usage-ledger
database) are modelled as explicit inputs: the ledger count is a number,
cv2 handles are records of "opens?" flags plus the list of readable frames,
and the face functions are arbitrary `Except`-valued functions (a raised
Python exception is an `Except.error` carrying its text).
-/

namespace DLC

/-! ## Tier / admission gate — src/api/tier.py and src/api/config.py -/

/-- The limit-related fields of `Settings` (src/api/config.py). -/
structure Settings where
  max_image_bytes : Nat
  max_video_bytes_free : Nat
  max_video_bytes_logged_in : Nat
  max_video_bytes_premium : Nat
  anon_image_swaps_per_day : Int
  anon_video_swaps_per_day : Int
  free_image_swaps_per_day : Int
  free_video_swaps_per_day : Int
deriving DecidableEq, Repr

/-- The default values from src/api/config.py. -/
def defaultSettings : Settings where
  max_image_bytes := 10 * 1024 * 1024
  max_video_bytes_free := 25 * 1024 * 1024
  max_video_bytes_logged_in := 50 * 1024 * 1024
  max_video_bytes_premium := 100 * 1024 * 1024
  anon_image_swaps_per_day := 5
  anon_video_swaps_per_day := 1
  free_image_swaps_per_day := 10
  free_video_swaps_per_day := 3

/-- A `User` row as far as the gate consults it: only its `tier` string. -/
structure UserT where
  tier : String
deriving DecidableEq, Repr

/-- Python `user and user.tier == "premium"`. -/
def isPremiumUser : Option UserT → Bool
  | some u => u.tier = "premium"
  | none => false

/-- `get_max_video_bytes` (src/api/tier.py lines 15-21). -/
def get_max_video_bytes (user : Option UserT) (st : Settings) : Nat :=
  match user with
  | none => st.max_video_bytes_free
  | some u =>
      if u.tier = "premium" then st.max_video_bytes_premium
      else st.max_video_bytes_logged_in

/-- The daily limit chosen in `check_usage_limit` (lines 39-55): per job
type, with distinct values for logged-in (free) and anonymous callers. -/
def tierLimit (user : Option UserT) (job_type : String) (st : Settings) : Int :=
  match user with
  | some _ =>
      if job_type = "image" then st.free_image_swaps_per_day
      else st.free_video_swaps_per_day
  | none =>
      if job_type = "image" then st.anon_image_swaps_per_day
      else st.anon_video_swaps_per_day

/-- Result of `check_usage_limit`: whether HTTP 429 was raised, and whether
the usage-ledger count query was executed at all. -/
structure UsageOutcome where
  rejected : Bool
  ledgerRead : Bool
deriving DecidableEq, Repr

/-- `check_usage_limit` (src/api/tier.py lines 24-74).  The ledger count the
database would return is the explicit input `count`; `session_id` is the
`dlc_session` cookie.  Control flow mirrors the source: premium returns
early; anonymous callers without a session return before any ledger read;
otherwise the count is read and `limit != -1 and count >= limit` rejects. -/
def check_usage_limit (user : Option UserT) (job_type : String)
    (session_id : Option String) (count : Nat) (st : Settings) : UsageOutcome :=
  if isPremiumUser user then
    { rejected := false, ledgerRead := false }
  else if user.isNone ∧ session_id.isNone then
    { rejected := false, ledgerRead := false }
  else if tierLimit user job_type st ≠ -1 ∧ (count : Int) ≥ tierLimit user job_type st then
    { rejected := true, ledgerRead := true }
  else
    { rejected := false, ledgerRead := true }

/-! ## Priority queue items — src/api/queue.py `_JobItem` -/

/-- `_JobItem` (src/api/queue.py lines 17-31) without the opaque payload:
`priority` (0 = premium, 1 = free) and the admission sequence number. -/
structure JobItem where
  priority : Int
  seq : Nat
  job_id : String
deriving DecidableEq, Repr

/-- `_JobItem.__lt__` (lines 28-31). -/
def JobItem.lt (a b : JobItem) : Bool :=
  if a.priority ≠ b.priority then decide (a.priority < b.priority)
  else decide (a.seq < b.seq)

/-- One `PriorityQueue.get`: extract a least element under `JobItem.lt`
(the heap invariant of `queue.PriorityQueue`), returning it and the rest. -/
def popMin : List JobItem → Option (JobItem × List JobItem)
  | [] => none
  | x :: xs =>
      match popMin xs with
      | none => some (x, [])
      | some (m, rest) =>
          if JobItem.lt m x then some (m, x :: rest) else some (x, m :: rest)

theorem popMin_ne_none (x : JobItem) (xs : List JobItem) :
    popMin (x :: xs) ≠ none := by
  simp only [popMin]
  cases hxs : popMin xs with
  | none => simp
  | some p =>
      obtain ⟨m, rest⟩ := p
      by_cases hlt : JobItem.lt m x <;> simp [hlt]

theorem popMin_length : ∀ {l : List JobItem} {m : JobItem} {rest : List JobItem},
    popMin l = some (m, rest) → rest.length + 1 = l.length := by
  intro l
  induction l with
  | nil => intro m rest h; simp [popMin] at h
  | cons x xs ih =>
      intro m rest h
      simp only [popMin] at h
      cases hxs : popMin xs with
      | none =>
          rw [hxs] at h
          cases xs with
          | nil =>
              simp at h
              simp [← h.2]
          | cons y ys => exact absurd hxs (popMin_ne_none y ys)
      | some p =>
          rw [hxs] at h
          obtain ⟨m', rest'⟩ := p
          have hlen := ih hxs
          by_cases hlt : JobItem.lt m' x
          · simp [hlt] at h
            simp [← h.2, ← hlen]
          · simp [hlt] at h
            simp [← h.2, ← hlen]

/-- The order in which the worker drains the queue: repeated `popMin`. -/
def drain (l : List JobItem) : List JobItem :=
  match h : popMin l with
  | none => []
  | some (m, rest) => m :: drain rest
termination_by l.length
decreasing_by
  have := popMin_length h
  omega

/-! ## Job state tracker — src/api/queue.py `JobQueue._job_state` / `_update` -/

inductive Status
  | queued
  | processing
  | done
  | failed
deriving DecidableEq, Repr

/-- One entry of `JobQueue._job_state` (the dict created in `enqueue`,
lines 62-67, plus the `result_path` key added by the terminal update). -/
structure JobState where
  status : Status
  total_frames : Nat
  processed_frames : Nat
  error : Option String
  result_path : Option String
deriving DecidableEq, Repr

/-- The dict installed by `enqueue` (lines 62-67): status queued, counters
zero, no error (and no result path yet). -/
def initState : JobState :=
  { status := .queued, total_frames := 0, processed_frames := 0
    error := none, result_path := none }

/-- The concrete `_update` calls `_process`/`_run` make, in source order:
`status="processing"`, `status="failed", error=...`, `total_frames=...`,
`processed_frames=...`, and the terminal
`status="done", processed_frames=..., result_path=...`. -/
inductive Upd
  | setProcessing
  | fail (err : String)
  | setTotal (n : Nat)
  | setProcessed (n : Nat)
  | finishDone (n : Nat) (path : String)
deriving DecidableEq, Repr

/-- `_update` (lines 75-78): a field merge on the job's dict. -/
def applyUpd (st : JobState) : Upd → JobState
  | .setProcessing => { st with status := .processing }
  | .fail e => { st with status := .failed, error := some e }
  | .setTotal n => { st with total_frames := n }
  | .setProcessed n => { st with processed_frames := n }
  | .finishDone n p =>
      { st with status := .done, processed_frames := n, result_path := some p }

def applyUpds (st : JobState) (us : List Upd) : JobState :=
  us.foldl applyUpd st

/-- The successive tracker states a reader can observe: the state before any
update together with the state after each update. -/
def statesOf (st : JobState) : List Upd → List JobState
  | [] => [st]
  | u :: us => st :: statesOf (applyUpd st u) us

/-! ## Video processing — src/api/queue.py `JobQueue._process` / `_run` -/

/-- The external world one `_process` call touches.  Frames and faces are
opaque data (`Nat`); each face-module call may raise (`Except.error` carries
the Python exception text). -/
structure VideoEnv where
  capOpens : Bool
  frameCount : Nat
  frames : List Nat
  writerOpens : Bool
  outPath : String
  getManyFaces : Nat → Except String (List Nat)
  getOneFace : Nat → Except String (Option Nat)
  swapFace : Nat → Nat → Nat → Except String Nat
  enhanceImportOk : Bool
  enhanceFace : Nat → Except String Nat

/-- The payload keys `_process` reads (lines 99-102). -/
structure VideoPayload where
  source_face : Nat
  many_faces : Bool
  enhance : Bool

/-- Lines 141-145: `faces = get_many_faces(frame)` or
`[one] if one else None`; an empty list is falsy in `if faces:`, so it is
normalised to `none` here. -/
def frameFaces (env : VideoEnv) (p : VideoPayload) (frame : Nat) :
    Except String (Option (List Nat)) :=
  if p.many_faces then
    (env.getManyFaces frame).map (fun fs => if fs = [] then none else some fs)
  else
    (env.getOneFace frame).map (fun one => one.map (fun f => [f]))

/-- Lines 147-149: `for tf in faces: frame = swap_face(source_face, tf, frame)`. -/
def swapAll (env : VideoEnv) (src : Nat) : List Nat → Nat → Except String Nat
  | [], frame => .ok frame
  | f :: rest, frame =>
      match env.swapFace src f frame with
      | .error e => .error e
      | .ok fr => swapAll env src rest fr

/-- The body of the frame loop for one frame (lines 141-152): face lookup,
swapping, then enhancement — which runs only when the `enhance` option is
set *and* the `face_enhancer` import succeeded (`enhance_fn is not None`). -/
def processFrame (env : VideoEnv) (p : VideoPayload) (frame : Nat) :
    Except String Nat :=
  match frameFaces env p frame with
  | .error e => .error e
  | .ok faces =>
      match (match faces with
             | some fs => swapAll env p.source_face fs frame
             | none => .ok frame) with
      | .error e => .error e
      | .ok fr =>
          if p.enhance ∧ env.enhanceImportOk then env.enhanceFace fr
          else .ok fr

/-- The `while True` frame loop (lines 135-156) started with `processed = n`:
returns the `processed_frames` updates it issues, the final `processed`
counter, and the text of the first exception if one was raised. -/
def frameLoop (env : VideoEnv) (p : VideoPayload) :
    List Nat → Nat → List Upd × Nat × Option String
  | [], n => ([], n, none)
  | f :: rest, n =>
      match processFrame env p f with
      | .error e => ([], n, some e)
      | .ok _ =>
          let r := frameLoop env p rest (n + 1)
          (Upd.setProcessed (n + 1) :: r.1, r.2.1, r.2.2)

/-- What one `_process` call did: the tracker updates it issued in order,
the exception escaping it (caught by `_run`), and which cleanup actions
ran (`cap.release()`, `writer.release()`, `os.unlink(tmp_in)`). -/
structure ProcResult where
  updates : List Upd
  exc : Option String
  capOpened : Bool
  capReleased : Bool
  writerOpened : Bool
  writerReleased : Bool
  tmpDeleted : Bool
deriving DecidableEq, Repr

/-- `_process` (lines 94-172).  Mirrors the source's early returns: cap open
failure (lines 109-111), writer open failure (lines 122-125), an exception
escaping the frame loop (propagates before release/unlink, lines 136-156),
the zero-frame failure (lines 167-169), and normal completion (line 171). -/
def procVideo (env : VideoEnv) (p : VideoPayload) : ProcResult :=
  let u0 : List Upd := [.setProcessing]
  if ¬ env.capOpens then
    { updates := u0 ++ [.fail "Could not open target video"], exc := none
      capOpened := false, capReleased := false
      writerOpened := false, writerReleased := false, tmpDeleted := false }
  else
    let u1 := u0 ++ [.setTotal env.frameCount]
    if ¬ env.writerOpens then
      { updates := u1 ++ [.fail "Failed to create output video writer"]
        exc := none, capOpened := true, capReleased := true
        writerOpened := false, writerReleased := false, tmpDeleted := false }
    else
      match frameLoop env p env.frames 0 with
      | (us, _, some e) =>
          { updates := u1 ++ us, exc := some e
            capOpened := true, capReleased := false
            writerOpened := true, writerReleased := false, tmpDeleted := false }
      | (us, n, none) =>
          if n = 0 then
            { updates := u1 ++ us ++ [.fail "Video contained no readable frames"]
              exc := none, capOpened := true, capReleased := true
              writerOpened := true, writerReleased := true, tmpDeleted := true }
          else
            { updates := u1 ++ us ++ [.finishDone n env.outPath]
              exc := none, capOpened := true, capReleased := true
              writerOpened := true, writerReleased := true, tmpDeleted := true }

/-- All tracker updates one dequeued item causes: those of `_process` plus
the `status="failed", error=str(exc)` that `_run`'s `except` clause issues
when `_process` raised (lines 87-90). -/
def runUpdates (env : VideoEnv) (p : VideoPayload) : List Upd :=
  (procVideo env p).updates ++
    (match (procVideo env p).exc with
     | some e => [.fail e]
     | none => [])

/-- The job's final tracker state after the worker handled it. -/
def runOne (env : VideoEnv) (p : VideoPayload) : JobState :=
  applyUpds initState (runUpdates env p)

/-- Every tracker state a concurrent `get_state` reader can observe for the
job, in order: `queued` at enqueue, then the state after each update. -/
def stateHistory (env : VideoEnv) (p : VideoPayload) : List JobState :=
  statesOf initState (runUpdates env p)

/-- The final value of the `processed` counter. -/
def finalProcessed (env : VideoEnv) (p : VideoPayload) : Nat :=
  (frameLoop env p env.frames 0).2.1

/-- A queued item as the worker sees it. -/
structure QJob where
  job_id : String
  env : VideoEnv
  payload : VideoPayload

/-- The worker loop `_run` (lines 80-92) over a finite intake: each item is
processed inside `try/except`, so an exception from `_process` becomes that
job's `failed` state and the loop moves on to the next item. -/
def workerRun : List QJob → List (String × JobState)
  | [] => []
  | j :: rest => (j.job_id, runOne j.env j.payload) :: workerRun rest

/-! ## Submission endpoints — src/api/routers/swap.py -/

deriving instance DecidableEq for Except

/-- The `HTTPException`s the two endpoints can raise, in the order the
source can raise them. -/
inductive ApiError
  | quotaExceeded
  | sourceTooLarge
  | targetTooLarge
  | enhanceForbidden
  | decodeFailed (label : String)
  | noFaceSource
  | noFaceTarget
  | swapFailed (msg : String)
  | enhanceFailed (msg : String)
  | encodeFailed
deriving DecidableEq, Repr

/-- One `/swap` (image) request together with the external facts that
decide it: the ledger count, upload sizes, decode results, and the face
functions' results on the two decoded images. -/
structure ImageRequest where
  user : Option UserT
  session_id : Option String
  imageCount : Nat
  sourceSize : Nat
  targetSize : Nat
  many_faces : Bool
  enhance : Bool
  sourceDecodes : Bool
  targetDecodes : Bool
  sourceFace : Option Nat
  targetImg : Nat
  targetOneFace : Option Nat
  targetManyFaces : List Nat
  swapFace : Nat → Nat → Nat → Except String Nat
  enhanceImportOk : Bool
  enhanceFace : Nat → Except String Nat
  encodeOk : Bool

/-- `swap` (src/api/routers/swap.py lines 35-117), up to the point where the
job row and usage record are created: `.ok` means all checks passed and a
`done` image job is persisted; `.error` means an `HTTPException` was raised
before any job was created or queued.  The check order mirrors the source:
usage limit, source size, target size, premium-only enhancement, decoding,
source face, target face(s), swapping, enhancement, encoding. -/
def swap_image (st : Settings) (r : ImageRequest) : Except ApiError Unit :=
  if (check_usage_limit r.user "image" r.session_id r.imageCount st).rejected then
    .error .quotaExceeded
  else if r.sourceSize > st.max_image_bytes then .error .sourceTooLarge
  else if r.targetSize > st.max_image_bytes then .error .targetTooLarge
  else if r.enhance ∧ ¬ isPremiumUser r.user then .error .enhanceForbidden
  else if ¬ r.sourceDecodes then .error (.decodeFailed "source")
  else if ¬ r.targetDecodes then .error (.decodeFailed "target")
  else
    match r.sourceFace with
    | none => .error .noFaceSource
    | some sf =>
        match (if r.many_faces then
                 if r.targetManyFaces = [] then none else some r.targetManyFaces
               else r.targetOneFace.map (fun f => [f])) with
        | none => .error .noFaceTarget
        | some tfaces =>
            match (tfaces.foldlM (fun img tf => r.swapFace sf tf img) r.targetImg) with
            | .error m => .error (.swapFailed m)
            | .ok res =>
                match (if r.enhance then
                         if r.enhanceImportOk then
                           (r.enhanceFace res).mapError (fun m => ApiError.enhanceFailed m)
                         else .error (.enhanceFailed "import")
                       else .ok res) with
                | .error e => .error e
                | .ok _ => if r.encodeOk then .ok () else .error .encodeFailed

/-- One `/swap/video` request with its deciding external facts. -/
structure VideoRequest where
  user : Option UserT
  session_id : Option String
  videoCount : Nat
  sourceSize : Nat
  targetSize : Nat
  many_faces : Bool
  enhance : Bool
  sourceDecodes : Bool
  sourceFace : Option Nat

/-- `swap_video` (src/api/routers/swap.py lines 120-181) up to enqueue:
`.ok priority` means the job was persisted and enqueued with that priority;
`.error` is the `HTTPException` raised first.  Check order as in the
source: usage limit (line 130), source size (133), target size against the
tier ceiling (136-140), premium-only enhancement (142), source decode
(145), source face (148-150). -/
def swap_video (st : Settings) (r : VideoRequest) : Except ApiError Int :=
  if (check_usage_limit r.user "video" r.session_id r.videoCount st).rejected then
    .error .quotaExceeded
  else if r.sourceSize > st.max_image_bytes then .error .sourceTooLarge
  else if r.targetSize > get_max_video_bytes r.user st then .error .targetTooLarge
  else if r.enhance ∧ ¬ isPremiumUser r.user then .error .enhanceForbidden
  else if ¬ r.sourceDecodes then .error (.decodeFailed "source")
  else
    match r.sourceFace with
    | none => .error .noFaceSource
    | some _ => .ok (if isPremiumUser r.user then 0 else 1)

/-! ## Theorems -/

theorem cul_premium (user : Option UserT) (jt : String) (sid : Option String)
    (count : Nat) (st : Settings) (h : isPremiumUser user = true) :
    check_usage_limit user jt sid count st =
      { rejected := false, ledgerRead := false } := by
  simp [check_usage_limit, h]

theorem cul_noId (user : Option UserT) (jt : String) (sid : Option String)
    (count : Nat) (st : Settings) (hu : user = none) (hs : sid = none) :
    check_usage_limit user jt sid count st =
      { rejected := false, ledgerRead := false } := by
  subst hu; subst hs
  simp [check_usage_limit, isPremiumUser]

theorem cul_consulted (user : Option UserT) (jt : String) (sid : Option String)
    (count : Nat) (st : Settings) (hp : isPremiumUser user = false)
    (hid : ¬ (user = none ∧ sid = none)) :
    check_usage_limit user jt sid count st =
      if tierLimit user jt st ≠ -1 ∧ (count : Int) ≥ tierLimit user jt st
      then { rejected := true, ledgerRead := true }
      else { rejected := false, ledgerRead := true } := by
  have h1 : ¬ (isPremiumUser user = true) := by simp [hp]
  have h2 : ¬ (user.isNone = true ∧ sid.isNone = true) := by
    simpa [Option.isNone_iff_eq_none] using hid
  unfold check_usage_limit
  rw [if_neg h1, if_neg h2]

/-- C4: the admission quota check rejects exactly when the caller is not
premium, a ledger identity exists (logged-in user or session cookie), the
tier's daily limit is not the -1 sentinel, and the prior-admission count is
at least the limit.  In particular `count = limit` (with a consulted,
non-premium, non-sentinel ledger) is rejected, `count = limit - 1` is
allowed, `limit = -1` is always allowed, and a premium caller is always
allowed. -/
theorem check_usage_limit_reject_iff (st : Settings) (user : Option UserT)
    (jt : String) (sid : Option String) (count : Nat) :
    ((check_usage_limit user jt sid count st).rejected = true ↔
      (isPremiumUser user = false ∧ (user.isSome ∨ sid.isSome) ∧
        tierLimit user jt st ≠ -1 ∧ (count : Int) ≥ tierLimit user jt st))
    ∧ (isPremiumUser user = false → (user.isSome ∨ sid.isSome) →
        tierLimit user jt st ≠ -1 → (count : Int) = tierLimit user jt st →
        (check_usage_limit user jt sid count st).rejected = true)
    ∧ ((count : Int) = tierLimit user jt st - 1 →
        (check_usage_limit user jt sid count st).rejected = false)
    ∧ (tierLimit user jt st = -1 →
        (check_usage_limit user jt sid count st).rejected = false)
    ∧ (isPremiumUser user = true →
        (check_usage_limit user jt sid count st).rejected = false) := by
  by_cases hp : isPremiumUser user = true
  · have he := cul_premium user jt sid count st hp
    refine ⟨?_, ?_, ?_, ?_, ?_⟩ <;> simp [he, hp]
  · have hp' : isPremiumUser user = false := by simpa using hp
    by_cases hid : user = none ∧ sid = none
    · have he := cul_noId user jt sid count st hid.1 hid.2
      have hns : ¬ (user.isSome = true ∨ sid.isSome = true) := by
        simp [hid.1, hid.2]
      refine ⟨?_, ?_, ?_, ?_, ?_⟩
      · simp [he]
        intro _ h
        exact absurd h hns
      · intro _ hcons _ _
        exact absurd hcons hns
      · intro _; simp [he]
      · intro _; simp [he]
      · intro h; exact absurd h hp
    · have he := cul_consulted user jt sid count st hp' hid
      have hsome : user.isSome = true ∨ sid.isSome = true := by
        rcases user with _ | u
        · rcases sid with _ | s
          · exact absurd ⟨rfl, rfl⟩ hid
          · exact Or.inr rfl
        · exact Or.inl rfl
      refine ⟨?_, ?_, ?_, ?_, ?_⟩
      · rw [he]
        by_cases hcond : tierLimit user jt st ≠ -1 ∧ (count : Int) ≥ tierLimit user jt st
        · rw [if_pos hcond]
          constructor
          · intro _
            exact ⟨hp', hsome, hcond.1, hcond.2⟩
          · intro _
            rfl
        · rw [if_neg hcond]
          constructor
          · intro h
            exact absurd h (by simp)
          · rintro ⟨_, _, h3, h4⟩
            exact absurd ⟨h3, h4⟩ hcond
      · intro _ _ hl hcnt
        rw [he]
        have hcond : tierLimit user jt st ≠ -1 ∧ (count : Int) ≥ tierLimit user jt st :=
          ⟨hl, le_of_eq hcnt.symm⟩
        simp [hcond]
      · intro hcnt
        rw [he]
        have hcond : ¬ (tierLimit user jt st ≠ -1 ∧ (count : Int) ≥ tierLimit user jt st) := by
          rintro ⟨_, h2⟩
          omega
        simp [hcond]
      · intro hl
        rw [he]
        have hcond : ¬ (tierLimit user jt st ≠ -1 ∧ (count : Int) ≥ tierLimit user jt st) := by
          rintro ⟨h1, _⟩
          exact h1 hl
        simp [hcond]
      · intro h
        exact absurd h hp

theorem check_usage_limit_reject_iff_witness :
    (check_usage_limit (some ⟨"free"⟩) "image" none 10 defaultSettings).rejected = true
    ∧ (check_usage_limit none "video" (some "s") 0 defaultSettings).rejected = false
    ∧ (check_usage_limit (some ⟨"premium"⟩) "video" none 1000 defaultSettings).rejected = false := by
  refine ⟨?_, ?_, ?_⟩
  · exact (check_usage_limit_reject_iff defaultSettings (some ⟨"free"⟩) "image" none 10).1.mpr
      ⟨by decide, Or.inl rfl, by decide, by decide⟩
  · exact (check_usage_limit_reject_iff defaultSettings none "video" (some "s") 0).2.2.1
      (by decide)
  · exact (check_usage_limit_reject_iff defaultSettings (some ⟨"premium"⟩) "video" none 1000).2.2.2.2
      (by decide)

/-- C7: an anonymous caller (no user) with no session cookie is always
admitted, whatever the ledger count would have been, and the ledger is not
consulted — the deliberate fail-open path (src/api/tier.py lines 56-59). -/
theorem check_usage_limit_no_session (st : Settings) (jt : String) (count : Nat) :
    check_usage_limit none jt none count st =
      { rejected := false, ledgerRead := false } := by
  simp [check_usage_limit, isPremiumUser]

/-- C3 counterexample data: an anonymous caller with a session cookie who is
over the 1-per-day anonymous video quota and uploads a 26 MB target, over
the 25 MB anonymous ceiling — both checks would fail. -/
def bothFailVideoReq : VideoRequest where
  user := none
  session_id := some "sess"
  videoCount := 1
  sourceSize := 0
  targetSize := 26 * 1024 * 1024
  many_faces := false
  enhance := false
  sourceDecodes := true
  sourceFace := some 0

/-- C3 counterexample: when both the quota check and the size check would
fail, `swap_video` raises the quota rejection, not payload-too-large, and
the usage ledger *is* read for this trivially-oversized request — the size
check does not run first. -/
theorem swap_video_quota_precedence_cex :
    swap_video defaultSettings bothFailVideoReq = .error .quotaExceeded
    ∧ bothFailVideoReq.targetSize >
        get_max_video_bytes bothFailVideoReq.user defaultSettings
    ∧ swap_video defaultSettings bothFailVideoReq ≠ .error .targetTooLarge
    ∧ (check_usage_limit bothFailVideoReq.user "video"
        bothFailVideoReq.session_id bothFailVideoReq.videoCount
        defaultSettings).ledgerRead = true := by
  refine ⟨by decide, by decide, by decide, by decide⟩

/-- C3 amended: at submission the usage-ledger quota check runs *before*
the payload size check, and when both would fail the caller receives the
quota-exceeded rejection; the payload is checked against the tier ceiling
only when the quota check passes, and then an oversized target is rejected
as payload-too-large. -/
theorem swap_video_quota_before_size (st : Settings) (r : VideoRequest) :
    ((check_usage_limit r.user "video" r.session_id r.videoCount st).rejected = true →
      swap_video st r = .error .quotaExceeded)
    ∧ ((check_usage_limit r.user "video" r.session_id r.videoCount st).rejected = false →
        r.sourceSize ≤ st.max_image_bytes →
        r.targetSize > get_max_video_bytes r.user st →
        swap_video st r = .error .targetTooLarge) := by
  constructor
  · intro h
    simp [swap_video, h]
  · intro h hsrc htgt
    simp [swap_video, h, Nat.not_lt.mpr hsrc, htgt]

theorem swap_video_quota_before_size_witness :
    swap_video defaultSettings bothFailVideoReq = .error .quotaExceeded
    ∧ swap_video defaultSettings
        { bothFailVideoReq with videoCount := 0 } = .error .targetTooLarge := by
  constructor
  · exact (swap_video_quota_before_size defaultSettings bothFailVideoReq).1 (by decide)
  · exact (swap_video_quota_before_size defaultSettings
      { bothFailVideoReq with videoCount := 0 }).2 (by decide) (by decide) (by decide)

/-! ### Frame-loop lemmas -/

theorem frameLoop_all_ok (env : VideoEnv) (p : VideoPayload) :
    ∀ (fs : List Nat) (n : Nat),
      (∀ f ∈ fs, ∃ g, processFrame env p f = Except.ok g) →
      (frameLoop env p fs n).2.2 = none ∧
        (frameLoop env p fs n).2.1 = n + fs.length := by
  intro fs
  induction fs with
  | nil => intro n _; simp [frameLoop]
  | cons f rest ih =>
      intro n hok
      obtain ⟨g, hg⟩ := hok f (List.mem_cons_self f rest)
      have hr := ih (n + 1) (fun x hx => hok x (List.mem_cons_of_mem f hx))
      simp only [frameLoop, hg]
      refine ⟨hr.1, ?_⟩
      rw [hr.2]
      simp
      omega

theorem frameLoop_post (env : VideoEnv) (p : VideoPayload) :
    ∀ (fs : List Nat) (n : Nat) (st : JobState), st.processed_frames = n →
      applyUpds st (frameLoop env p fs n).1 =
        { st with processed_frames := (frameLoop env p fs n).2.1 } := by
  intro fs
  induction fs with
  | nil =>
      intro n st hst
      simp only [frameLoop, applyUpds, List.foldl_nil]
      rw [← hst]
  | cons f rest ih =>
      intro n st hst
      cases hg : processFrame env p f with
      | error e =>
          simp only [frameLoop, hg, applyUpds, List.foldl_nil]
          rw [← hst]
      | ok g =>
          simp only [frameLoop, hg, applyUpds, List.foldl_cons]
          have := ih (n + 1) (applyUpd st (.setProcessed (n + 1))) rfl
          simp only [applyUpds] at this
          rw [this]
          rfl

/-- `_process` on a successfully opened input and output when the frame
loop raised no exception. -/
theorem procVideo_of_loop_ok (env : VideoEnv) (p : VideoPayload)
    (hcap : env.capOpens = true) (hw : env.writerOpens = true)
    (us : List Upd) (n : Nat)
    (hl : frameLoop env p env.frames 0 = (us, n, none)) :
    procVideo env p =
      if n = 0 then
        { updates := [.setProcessing, .setTotal env.frameCount] ++ us ++
            [.fail "Video contained no readable frames"]
          exc := none, capOpened := true, capReleased := true
          writerOpened := true, writerReleased := true, tmpDeleted := true }
      else
        { updates := [.setProcessing, .setTotal env.frameCount] ++ us ++
            [.finishDone n env.outPath]
          exc := none, capOpened := true, capReleased := true
          writerOpened := true, writerReleased := true, tmpDeleted := true } := by
  unfold procVideo
  rw [if_neg (by simp [hcap]), if_neg (by simp [hw]), hl]
  rfl

/-- The final state of a job whose `_process` raised no exception and
opened both handles: `done` with the loop's final count on ≥ 1 processed
frames, `failed` on zero. -/
theorem runOne_of_loop_ok (env : VideoEnv) (p : VideoPayload)
    (hcap : env.capOpens = true) (hw : env.writerOpens = true)
    (us : List Upd) (n : Nat)
    (hl : frameLoop env p env.frames 0 = (us, n, none)) :
    runOne env p =
      if n = 0 then
        { status := .failed, total_frames := env.frameCount
          processed_frames := 0
          error := some "Video contained no readable frames"
          result_path := none }
      else
        { status := .done, total_frames := env.frameCount
          processed_frames := n, error := none
          result_path := some env.outPath } := by
  have hpost := frameLoop_post env p env.frames 0
    { status := .processing, total_frames := env.frameCount
      processed_frames := 0, error := none, result_path := none } rfl
  rw [hl] at hpost
  dsimp only at hpost
  simp only [applyUpds] at hpost
  have hproc := procVideo_of_loop_ok env p hcap hw us n hl
  by_cases hn : n = 0
  · rw [if_pos hn] at hproc
    subst hn
    rw [if_pos rfl]
    unfold runOne runUpdates
    rw [hproc]
    dsimp only
    simp only [applyUpds, List.foldl_append, List.foldl_cons, List.foldl_nil,
      List.append_nil]
    have h0 : applyUpd (applyUpd initState .setProcessing) (.setTotal env.frameCount) =
        { status := .processing, total_frames := env.frameCount
          processed_frames := 0, error := none, result_path := none } := rfl
    rw [h0, hpost]
    rfl
  · rw [if_neg hn] at hproc
    rw [if_neg hn]
    unfold runOne runUpdates
    rw [hproc]
    dsimp only
    simp only [applyUpds, List.foldl_append, List.foldl_cons, List.foldl_nil,
      List.append_nil]
    have h0 : applyUpd (applyUpd initState .setProcessing) (.setTotal env.frameCount) =
        { status := .processing, total_frames := env.frameCount
          processed_frames := 0, error := none, result_path := none } := rfl
    rw [h0, hpost]
    rfl

/-- Final state of a job whose handles open and whose per-frame transform
always succeeds. -/
theorem runOne_all_frames_ok (env : VideoEnv) (p : VideoPayload)
    (hcap : env.capOpens = true) (hw : env.writerOpens = true)
    (hok : ∀ f ∈ env.frames, ∃ g, processFrame env p f = Except.ok g) :
    (env.frames.length ≥ 1 →
      runOne env p =
        { status := .done, total_frames := env.frameCount
          processed_frames := env.frames.length, error := none
          result_path := some env.outPath })
    ∧ (env.frames.length = 0 →
        runOne env p =
          { status := .failed, total_frames := env.frameCount
            processed_frames := 0
            error := some "Video contained no readable frames"
            result_path := none }
        ∧ (procVideo env p).exc = none) := by
  obtain ⟨hexc, hn⟩ := frameLoop_all_ok env p env.frames 0 hok
  rcases hfl : frameLoop env p env.frames 0 with ⟨us, n, exc⟩
  rw [hfl] at hexc hn
  dsimp only at hexc hn
  rw [Nat.zero_add] at hn
  subst hexc
  subst hn
  have hl := hfl
  have hrun := runOne_of_loop_ok env p hcap hw _ _ hl
  constructor
  · intro hlen
    rw [hrun, if_neg (by omega)]
  · intro hlen
    refine ⟨by rw [hrun, if_pos hlen], ?_⟩
    rw [procVideo_of_loop_ok env p hcap hw _ _ hl, if_pos hlen]

/-- A base environment: a 2-frame video, everything opens, one face per
frame, swapping and enhancement return the frame unchanged. -/
def baseEnv : VideoEnv where
  capOpens := true
  frameCount := 2
  frames := [10, 20]
  writerOpens := true
  outPath := "res.mp4"
  getManyFaces := fun _ => .ok [1]
  getOneFace := fun _ => .ok (some 1)
  swapFace := fun _ _ fr => .ok fr
  enhanceImportOk := true
  enhanceFace := fun fr => .ok fr

def basePayload : VideoPayload where
  source_face := 0
  many_faces := false
  enhance := false

/-- C2: for a video job whose input opens, whose writer opens, and whose
per-frame transform always succeeds, `processed_frames` reaches exactly the
number N of readable frames and the status becomes `done` when N ≥ 1; when
N = 0 the status becomes `failed` even though no exception was raised. -/
theorem video_job_counts_and_status (env : VideoEnv) (p : VideoPayload)
    (hcap : env.capOpens = true) (hw : env.writerOpens = true)
    (hok : ∀ f ∈ env.frames, ∃ g, processFrame env p f = Except.ok g) :
    (env.frames.length ≥ 1 →
      runOne env p =
        { status := .done, total_frames := env.frameCount
          processed_frames := env.frames.length, error := none
          result_path := some env.outPath })
    ∧ (env.frames.length = 0 →
        runOne env p =
          { status := .failed, total_frames := env.frameCount
            processed_frames := 0
            error := some "Video contained no readable frames"
            result_path := none }
        ∧ (procVideo env p).exc = none) :=
  runOne_all_frames_ok env p hcap hw hok

theorem video_job_counts_and_status_witness :
    runOne baseEnv basePayload =
      { status := .done, total_frames := 2, processed_frames := 2
        error := none, result_path := some "res.mp4" }
    ∧ runOne { baseEnv with frames := [] } basePayload =
        { status := .failed, total_frames := 2, processed_frames := 0
          error := some "Video contained no readable frames"
          result_path := none } := by
  constructor
  · exact (video_job_counts_and_status baseEnv basePayload rfl rfl
      (fun f _ => ⟨f, rfl⟩)).1 (by decide)
  · exact ((video_job_counts_and_status { baseEnv with frames := [] }
      basePayload rfl rfl (fun f hf => absurd hf (List.not_mem_nil f))).2 rfl).1

/-! ### Worker-loop failure isolation -/

theorem runOne_of_exc (env : VideoEnv) (p : VideoPayload) (e : String)
    (h : (procVideo env p).exc = some e) :
    (runOne env p).status = .failed ∧ (runOne env p).error = some e := by
  unfold runOne runUpdates
  rw [h]
  simp only [applyUpds, List.foldl_append, List.foldl_cons, List.foldl_nil]
  exact ⟨rfl, rfl⟩

theorem workerRun_eq_map (jobs : List QJob) :
    workerRun jobs = jobs.map (fun k => (k.job_id, runOne k.env k.payload)) := by
  induction jobs with
  | nil => rfl
  | cons j rest ih => simp [workerRun, ih]

/-- C5: if processing a dequeued job raises an exception, the worker
records that job as `failed` with the exception text verbatim in `error`,
and the loop is unaffected: every queued job — before or after the failing
one — still gets its own processing outcome recorded. -/
theorem worker_isolates_job_failures (jobs : List QJob) (j : QJob)
    (hj : j ∈ jobs) (e : String)
    (hexc : (procVideo j.env j.payload).exc = some e) :
    workerRun jobs = jobs.map (fun k => (k.job_id, runOne k.env k.payload))
    ∧ (runOne j.env j.payload).status = .failed
    ∧ (runOne j.env j.payload).error = some e
    ∧ ∀ k ∈ jobs, (k.job_id, runOne k.env k.payload) ∈ workerRun jobs := by
  obtain ⟨h1, h2⟩ := runOne_of_exc j.env j.payload e hexc
  refine ⟨workerRun_eq_map jobs, h1, h2, ?_⟩
  intro k hk
  rw [workerRun_eq_map jobs]
  exact List.mem_map_of_mem _ hk

/-- A job whose second frame's swap raises. -/
def excEnv : VideoEnv :=
  { baseEnv with swapFace := fun _ _ fr => if fr = 20 then .error "swap exploded" else .ok fr }

theorem worker_isolates_job_failures_witness :
    workerRun [⟨"a", excEnv, basePayload⟩, ⟨"b", baseEnv, basePayload⟩] =
      [("a", runOne excEnv basePayload), ("b", runOne baseEnv basePayload)]
    ∧ (runOne excEnv basePayload).status = .failed
    ∧ (runOne excEnv basePayload).error = some "swap exploded"
    ∧ (runOne baseEnv basePayload).status = .done := by
  have h := worker_isolates_job_failures
    [⟨"a", excEnv, basePayload⟩, ⟨"b", baseEnv, basePayload⟩]
    ⟨"a", excEnv, basePayload⟩ (List.mem_cons_self _ _) "swap exploded" (by decide)
  exact ⟨h.1, h.2.1, h.2.2.1, by decide⟩

/-! ### Silent enhancement fallback -/

theorem swapAll_enhancer_indep (env : VideoEnv) (h : Nat → Except String Nat)
    (src : Nat) : ∀ (fs : List Nat) (fr : Nat),
    swapAll { env with enhanceFace := h } src fs fr = swapAll env src fs fr := by
  intro fs
  induction fs with
  | nil => intro fr; rfl
  | cons f rest ih =>
      intro fr
      simp only [swapAll]
      cases env.swapFace src f fr with
      | error e => rfl
      | ok g => exact ih g

theorem processFrame_enhancer_indep (env : VideoEnv) (p : VideoPayload)
    (himp : env.enhanceImportOk = false) (h : Nat → Except String Nat)
    (f : Nat) :
    processFrame { env with enhanceFace := h } p f = processFrame env p f := by
  unfold processFrame
  have hff : frameFaces { env with enhanceFace := h } p f = frameFaces env p f := rfl
  rw [hff]
  cases frameFaces env p f with
  | error e => rfl
  | ok faces =>
      cases faces with
      | none =>
          dsimp only
          rw [if_neg (by simp [himp]), if_neg (by simp [himp])]
      | some fs =>
          dsimp only
          rw [swapAll_enhancer_indep env h p.source_face fs f]
          cases swapAll env p.source_face fs f with
          | error e => rfl
          | ok g =>
              dsimp only
              rw [if_neg (by simp [himp]), if_neg (by simp [himp])]

/-- C10: when the enhancement option is set but the face-enhancer import
failed (so `enhance_fn` stays `None`), the job proceeds without
enhancement: with readable frames and successful swaps it finishes `done`
with `error` unset, and the per-frame processing does not depend on the
enhancer function at all — the enhancement failure is never surfaced in
the job's state. -/
theorem enhancer_import_failure_silent (env : VideoEnv) (p : VideoPayload)
    (hcap : env.capOpens = true) (hw : env.writerOpens = true)
    (henh : p.enhance = true) (himp : env.enhanceImportOk = false)
    (hok : ∀ f ∈ env.frames, ∃ g, processFrame env p f = Except.ok g)
    (hne : env.frames.length ≥ 1) :
    (runOne env p).status = .done ∧ (runOne env p).error = none
    ∧ ∀ (h : Nat → Except String Nat) (f : Nat),
        processFrame { env with enhanceFace := h } p f = processFrame env p f := by
  have hdone := (runOne_all_frames_ok env p hcap hw hok).1 hne
  rw [hdone]
  exact ⟨rfl, rfl, processFrame_enhancer_indep env p himp⟩

/-- The base job with enhancement requested but the enhancer import broken
(and an enhancer that would blow up if it were ever called). -/
def enhFailEnv : VideoEnv :=
  { baseEnv with enhanceImportOk := false
                 enhanceFace := fun _ => .error "enhancer crashed" }

theorem enhancer_import_failure_silent_witness :
    (runOne enhFailEnv { basePayload with enhance := true }).status = .done
    ∧ (runOne enhFailEnv { basePayload with enhance := true }).error = none := by
  have h := enhancer_import_failure_silent enhFailEnv
    { basePayload with enhance := true } rfl rfl rfl rfl
    (fun f _ => ⟨f, rfl⟩) (by decide)
  exact ⟨h.1, h.2.1⟩

/-! ### Tracker-history invariants -/

/-- The per-step invariant between two consecutive observable tracker
states: the processed counter never decreases, a non-zero total never
changes, and a terminal state is frozen. -/
def StepOK (s t : JobState) : Prop :=
  s.processed_frames ≤ t.processed_frames
  ∧ (s.total_frames ≠ 0 → t.total_frames = s.total_frames)
  ∧ ((s.status = .done ∨ s.status = .failed) → t = s)

theorem stepOK_refl (s : JobState) : StepOK s s :=
  ⟨le_refl _, fun _ => rfl, fun _ => rfl⟩

theorem stepOK_trans {s t u : JobState} (h1 : StepOK s t) (h2 : StepOK t u) :
    StepOK s u := by
  obtain ⟨a1, b1, c1⟩ := h1
  obtain ⟨a2, b2, c2⟩ := h2
  refine ⟨le_trans a1 a2, ?_, ?_⟩
  · intro hs
    rw [b2 (by rw [b1 hs]; exact hs), b1 hs]
  · intro hs
    have ht := c1 hs
    rw [c2 (by rw [ht]; exact hs), ht]

instance : IsTrans JobState StepOK := ⟨fun _ _ _ => stepOK_trans⟩

instance (s t : JobState) : Decidable (StepOK s t) := by
  unfold StepOK
  infer_instance

/-- Pointwise validity of an update list along its own trajectory. -/
def TraceOK : JobState → List Upd → Prop
  | _, [] => True
  | st, u :: us => StepOK st (applyUpd st u) ∧ TraceOK (applyUpd st u) us

theorem traceOK_append : ∀ (l1 l2 : List Upd) (st : JobState),
    TraceOK st l1 → TraceOK (applyUpds st l1) l2 → TraceOK st (l1 ++ l2) := by
  intro l1
  induction l1 with
  | nil => intro l2 st _ h2; exact h2
  | cons u us ih =>
      intro l2 st h1 h2
      exact ⟨h1.1, ih l2 (applyUpd st u) h1.2 h2⟩

theorem statesOf_head : ∀ (us : List Upd) (st : JobState),
    (statesOf st us).head? = some st := by
  intro us st
  cases us <;> rfl

theorem chain'_statesOf : ∀ (us : List Upd) (st : JobState),
    TraceOK st us → List.Chain' StepOK (statesOf st us) := by
  intro us
  induction us with
  | nil => intro st _; simp [statesOf]
  | cons u us ih =>
      intro st h
      rw [show statesOf st (u :: us) = st :: statesOf (applyUpd st u) us from rfl]
      rw [List.chain'_cons']
      refine ⟨?_, ih (applyUpd st u) h.2⟩
      intro b hb
      rw [statesOf_head us (applyUpd st u)] at hb
      cases hb
      exact h.1

theorem mem_statesOf_append : ∀ (l1 l2 : List Upd) (st s : JobState),
    s ∈ statesOf st (l1 ++ l2) →
    s ∈ statesOf st l1 ∨ s ∈ statesOf (applyUpds st l1) l2 := by
  intro l1
  induction l1 with
  | nil => intro l2 st s h; exact Or.inr h
  | cons u us ih =>
      intro l2 st s h
      rw [List.cons_append] at h
      rw [show statesOf st (u :: (us ++ l2)) =
        st :: statesOf (applyUpd st u) (us ++ l2) from rfl] at h
      rcases List.mem_cons.mp h with h | h
      · exact Or.inl (by rw [h]; exact List.mem_cons_self _ _)
      · rcases ih l2 (applyUpd st u) s h with h | h
        · exact Or.inl (List.mem_cons_of_mem _ h)
        · exact Or.inr h

/-- Along the frame loop the trajectory is valid and every observable
state keeps the starting status, error, total and result fields, with a
processed counter between the starting one and the final one. -/
theorem frameLoop_trace (env : VideoEnv) (p : VideoPayload) :
    ∀ (fs : List Nat) (n : Nat) (st : JobState),
      st.processed_frames = n → st.status = .processing →
      TraceOK st (frameLoop env p fs n).1
      ∧ ∀ s ∈ statesOf st (frameLoop env p fs n).1,
          s.status = st.status ∧ s.error = st.error
          ∧ s.total_frames = st.total_frames
          ∧ s.result_path = st.result_path := by
  intro fs
  induction fs with
  | nil =>
      intro n st hn hp
      refine ⟨trivial, ?_⟩
      intro s hs
      rw [show (frameLoop env p [] n).1 = [] from rfl] at hs
      rcases List.mem_singleton.mp hs
      exact ⟨rfl, rfl, rfl, rfl⟩
  | cons f rest ih =>
      intro n st hn hp
      cases hg : processFrame env p f with
      | error e =>
          have hfl : frameLoop env p (f :: rest) n = ([], n, some e) := by
            simp only [frameLoop, hg]
          rw [hfl]
          refine ⟨trivial, ?_⟩
          intro s hs
          rcases List.mem_singleton.mp hs
          exact ⟨rfl, rfl, rfl, rfl⟩
      | ok g =>
          have hfl : frameLoop env p (f :: rest) n =
              (Upd.setProcessed (n+1) :: (frameLoop env p rest (n+1)).1,
                (frameLoop env p rest (n+1)).2.1,
                (frameLoop env p rest (n+1)).2.2) := by
            simp only [frameLoop, hg]
          rw [hfl]
          have hst' : (applyUpd st (.setProcessed (n+1))).processed_frames = n + 1 := rfl
          have hsp' : (applyUpd st (.setProcessed (n+1))).status = .processing := hp
          obtain ⟨hT, hS⟩ := ih (n+1) (applyUpd st (.setProcessed (n+1))) hst' hsp'
          constructor
          · refine ⟨⟨?_, fun _ => rfl, ?_⟩, hT⟩
            · show st.processed_frames ≤ n + 1
              omega
            · intro habs
              rw [hp] at habs
              rcases habs with h | h <;> cases h
          · intro s hs
            rw [show statesOf st (Upd.setProcessed (n+1) :: (frameLoop env p rest (n+1)).1) =
              st :: statesOf (applyUpd st (.setProcessed (n+1)))
                (frameLoop env p rest (n+1)).1 from rfl] at hs
            rcases List.mem_cons.mp hs with h | h
            · rw [h]; exact ⟨rfl, rfl, rfl, rfl⟩
            · exact hS s h

theorem applyUpds_append (st : JobState) (l1 l2 : List Upd) :
    applyUpds st (l1 ++ l2) = applyUpds (applyUpds st l1) l2 := by
  simp [applyUpds, List.foldl_append]

theorem stepOK_nonterminal (s t : JobState)
    (h1 : s.processed_frames ≤ t.processed_frames)
    (h2 : s.total_frames ≠ 0 → t.total_frames = s.total_frames)
    (h3 : s.status = .queued ∨ s.status = .processing) : StepOK s t := by
  refine ⟨h1, h2, ?_⟩
  intro habs
  rcases h3 with h | h <;> rcases habs with g | g <;> rw [h] at g <;> cases g

theorem procVideo_cap_fail (env : VideoEnv) (p : VideoPayload)
    (h : env.capOpens = false) :
    procVideo env p =
      { updates := [.setProcessing, .fail "Could not open target video"]
        exc := none, capOpened := false, capReleased := false
        writerOpened := false, writerReleased := false, tmpDeleted := false } := by
  unfold procVideo
  rw [if_pos (by simp [h])]
  rfl

theorem procVideo_writer_fail (env : VideoEnv) (p : VideoPayload)
    (hcap : env.capOpens = true) (hw : env.writerOpens = false) :
    procVideo env p =
      { updates := [.setProcessing, .setTotal env.frameCount,
          .fail "Failed to create output video writer"]
        exc := none, capOpened := true, capReleased := true
        writerOpened := false, writerReleased := false, tmpDeleted := false } := by
  unfold procVideo
  rw [if_neg (by simp [hcap]), if_pos (by simp [hw])]
  rfl

theorem procVideo_loop_exc (env : VideoEnv) (p : VideoPayload)
    (hcap : env.capOpens = true) (hw : env.writerOpens = true)
    (us : List Upd) (n : Nat) (e : String)
    (hl : frameLoop env p env.frames 0 = (us, n, some e)) :
    procVideo env p =
      { updates := [.setProcessing, .setTotal env.frameCount] ++ us
        exc := some e, capOpened := true, capReleased := false
        writerOpened := true, writerReleased := false, tmpDeleted := false } := by
  unfold procVideo
  rw [if_neg (by simp [hcap]), if_neg (by simp [hw]), hl]
  rfl

/-- The state after `status="processing"` and `total_frames=t`. -/
def procState (t : Nat) : JobState :=
  { status := .processing, total_frames := t, processed_frames := 0
    error := none, result_path := none }

/-- Master history lemma: for every job the trajectory of tracker updates
is `StepOK`-valid, and a `done` state can only be the job's final state,
carrying the loop's final processed count. -/
theorem history_facts (env : VideoEnv) (p : VideoPayload) :
    TraceOK initState (runUpdates env p)
    ∧ (∀ s ∈ stateHistory env p, s.status = .done →
        s.processed_frames = finalProcessed env p ∧ s = runOne env p) := by
  by_cases hcap : env.capOpens = true
  case neg =>
    have hcap' : env.capOpens = false := by simpa using hcap
    have hpv := procVideo_cap_fail env p hcap'
    have hru : runUpdates env p =
        [.setProcessing, .fail "Could not open target video"] := by
      unfold runUpdates
      rw [hpv]
      rfl
    constructor
    · rw [hru]
      exact ⟨by decide, by decide, trivial⟩
    · intro s hs hdone
      unfold stateHistory at hs
      rw [hru] at hs
      simp only [statesOf, List.mem_cons, List.mem_singleton,
        List.not_mem_nil, or_false] at hs
      rcases hs with rfl | rfl | rfl <;> exact absurd hdone (by decide)
  case pos =>
  by_cases hw : env.writerOpens = true
  case neg =>
    have hw' : env.writerOpens = false := by simpa using hw
    have hpv := procVideo_writer_fail env p hcap hw'
    have hru : runUpdates env p =
        [.setProcessing, .setTotal env.frameCount,
          .fail "Failed to create output video writer"] := by
      unfold runUpdates
      rw [hpv]
      rfl
    constructor
    · rw [hru]
      refine ⟨by decide, ?_, ?_, trivial⟩
      · exact stepOK_nonterminal _ _ (le_refl _) (fun h => absurd rfl h) (Or.inr rfl)
      · exact stepOK_nonterminal _ _ (le_refl _) (fun _ => rfl) (Or.inr rfl)
    · intro s hs hdone
      unfold stateHistory at hs
      rw [hru] at hs
      simp only [statesOf, List.mem_cons, List.mem_singleton,
        List.not_mem_nil, or_false] at hs
      rcases hs with rfl | rfl | rfl | rfl <;> exact nomatch hdone
  case pos =>
  rcases hfl : frameLoop env p env.frames 0 with ⟨us, m, exc⟩
  have hA : applyUpds initState [Upd.setProcessing, Upd.setTotal env.frameCount] =
      procState env.frameCount := rfl
  obtain ⟨hTus, hSus⟩ := frameLoop_trace env p env.frames 0 (procState env.frameCount) rfl rfl
  rw [hfl] at hTus hSus
  dsimp only at hTus hSus
  have hpost := frameLoop_post env p env.frames 0 (procState env.frameCount) rfl
  rw [hfl] at hpost
  dsimp only at hpost
  have hTA : TraceOK initState [Upd.setProcessing, Upd.setTotal env.frameCount] := by
    refine ⟨by decide, ?_, trivial⟩
    exact stepOK_nonterminal _ _ (le_refl _) (fun h => absurd rfl h) (Or.inr rfl)
  have hTAus : TraceOK initState ([Upd.setProcessing, Upd.setTotal env.frameCount] ++ us) :=
    traceOK_append _ _ _ hTA (by rw [hA]; exact hTus)
  have hAus : applyUpds initState ([Upd.setProcessing, Upd.setTotal env.frameCount] ++ us) =
      { procState env.frameCount with processed_frames := m } := by
    rw [applyUpds_append, hA, hpost]
  have hmemAus : ∀ s ∈ statesOf initState
      ([Upd.setProcessing, Upd.setTotal env.frameCount] ++ us),
      s.status ≠ Status.done := by
    intro s hs
    rcases mem_statesOf_append _ _ _ _ hs with h | h
    · simp only [statesOf, List.mem_cons, List.mem_singleton,
        List.not_mem_nil, or_false] at h
      rcases h with rfl | rfl | rfl <;> exact fun hq => nomatch hq
    · rw [hA] at h
      have := (hSus s h).1
      rw [this]
      exact fun hq => nomatch hq
  cases exc with
  | some e =>
      have hpv := procVideo_loop_exc env p hcap hw us m e hfl
      have hru : runUpdates env p =
          ([Upd.setProcessing, Upd.setTotal env.frameCount] ++ us) ++ [Upd.fail e] := by
        unfold runUpdates
        rw [hpv]
      constructor
      · rw [hru]
        refine traceOK_append _ _ _ hTAus ?_
        rw [hAus]
        exact ⟨stepOK_nonterminal _ _ (le_refl _) (fun _ => rfl) (Or.inr rfl), trivial⟩
      · intro s hs hdone
        unfold stateHistory at hs
        rw [hru] at hs
        rcases mem_statesOf_append _ _ _ _ hs with h | h
        · exact absurd hdone (hmemAus s h)
        · rw [hAus] at h
          simp only [statesOf, List.mem_cons, List.mem_singleton,
            List.not_mem_nil, or_false] at h
          rcases h with rfl | rfl <;> exact nomatch hdone
  | none =>
      have hpv := procVideo_of_loop_ok env p hcap hw us m hfl
      by_cases hm : m = 0
      · subst hm
        rw [if_pos rfl] at hpv
        have hru : runUpdates env p =
            ([Upd.setProcessing, Upd.setTotal env.frameCount] ++ us) ++
              [Upd.fail "Video contained no readable frames"] := by
          unfold runUpdates
          rw [hpv]
          dsimp only
          rw [List.append_nil]
        constructor
        · rw [hru]
          refine traceOK_append _ _ _ hTAus ?_
          rw [hAus]
          exact ⟨stepOK_nonterminal _ _ (le_refl _) (fun _ => rfl) (Or.inr rfl), trivial⟩
        · intro s hs hdone
          unfold stateHistory at hs
          rw [hru] at hs
          rcases mem_statesOf_append _ _ _ _ hs with h | h
          · exact absurd hdone (hmemAus s h)
          · rw [hAus] at h
            simp only [statesOf, List.mem_cons, List.mem_singleton,
              List.not_mem_nil, or_false] at h
            rcases h with rfl | rfl <;> exact nomatch hdone
      · rw [if_neg hm] at hpv
        have hru : runUpdates env p =
            ([Upd.setProcessing, Upd.setTotal env.frameCount] ++ us) ++
              [Upd.finishDone m env.outPath] := by
          unfold runUpdates
          rw [hpv]
          dsimp only
          rw [List.append_nil]
        have hfin : finalProcessed env p = m := by
          unfold finalProcessed
          rw [hfl]
        have hrun := runOne_of_loop_ok env p hcap hw us m hfl
        rw [if_neg hm] at hrun
        constructor
        · rw [hru]
          refine traceOK_append _ _ _ hTAus ?_
          rw [hAus]
          exact ⟨stepOK_nonterminal _ _ (le_refl _) (fun _ => rfl) (Or.inr rfl), trivial⟩
        · intro s hs hdone
          unfold stateHistory at hs
          rw [hru] at hs
          rcases mem_statesOf_append _ _ _ _ hs with h | h
          · exact absurd hdone (hmemAus s h)
          · rw [hAus] at h
            simp only [statesOf, List.mem_cons, List.mem_singleton,
              List.not_mem_nil, or_false] at h
            rcases h with rfl | rfl
            · exact nomatch hdone
            · refine ⟨?_, ?_⟩
              · rw [hfin]
                rfl
              · rw [hrun]
                rfl

/-- C6 counterexample input: a video whose container metadata reports an
unknown frame count (`cv2.CAP_PROP_FRAME_COUNT` gives 0, kept by the
`or 0` at src/api/queue.py line 113) while two frames are readable. -/
def metaZeroEnv : VideoEnv := { baseEnv with frameCount := 0 }

/-- C6 counterexample: the claim's last conjunct fails — a reader observes
status `done` with `processed_frames = 2` while the final `total_frames`
is 0, because `total_frames` comes from container metadata and the code
never reconciles it with the number of frames actually read. -/
theorem tracker_done_total_mismatch_cex :
    (runOne metaZeroEnv basePayload).status = .done
    ∧ (runOne metaZeroEnv basePayload).processed_frames = 2
    ∧ (runOne metaZeroEnv basePayload).total_frames = 0
    ∧ (runOne metaZeroEnv basePayload).processed_frames ≠
        (runOne metaZeroEnv basePayload).total_frames
    ∧ runOne metaZeroEnv basePayload ∈ stateHistory metaZeroEnv basePayload := by
  decide

/-- C6 amended: over the whole update sequence of any job,
`processed_frames` is monotonically non-decreasing (in particular while
status is processing); `total_frames`, once set to a non-zero value, never
changes; a terminal status, once set, never changes (the state is frozen);
and a reader never observes status `done` except as the job's final state,
whose `processed_frames` is exactly the loop's final processed count —
`total_frames` may differ from it when the container metadata differs from
the number of readable frames. -/
theorem tracker_history_invariants (env : VideoEnv) (p : VideoPayload) :
    List.Chain' StepOK (stateHistory env p)
    ∧ (∀ (i j : Nat) (hi : i < (stateHistory env p).length)
        (hj : j < (stateHistory env p).length), i ≤ j →
        StepOK ((stateHistory env p).get ⟨i, hi⟩) ((stateHistory env p).get ⟨j, hj⟩))
    ∧ (∀ s ∈ stateHistory env p, s.status = .done →
        s.processed_frames = finalProcessed env p ∧ s = runOne env p) := by
  obtain ⟨hT, hD⟩ := history_facts env p
  have hchain : List.Chain' StepOK (stateHistory env p) :=
    chain'_statesOf _ _ hT
  refine ⟨hchain, ?_, hD⟩
  have hpw := List.chain'_iff_pairwise.mp hchain
  intro i j hi hj hij
  rcases Nat.lt_or_ge i j with h | h
  · exact List.pairwise_iff_get.mp hpw ⟨i, hi⟩ ⟨j, hj⟩ h
  · have hij' : i = j := le_antisymm hij h
    subst hij'
    exact stepOK_refl _

theorem tracker_history_invariants_witness :
    StepOK ((stateHistory baseEnv basePayload).get ⟨1, by decide⟩)
      ((stateHistory baseEnv basePayload).get ⟨4, by decide⟩)
    ∧ (runOne baseEnv basePayload).processed_frames =
        finalProcessed baseEnv basePayload := by
  constructor
  · exact (tracker_history_invariants baseEnv basePayload).2.1 1 4
      (by decide) (by decide) (by decide)
  · exact ((tracker_history_invariants baseEnv basePayload).2.2
      (runOne baseEnv basePayload) (by decide) (by decide)).1

/-! ### Resource cleanup on terminal paths -/

/-- A job whose input video cannot be opened. -/
def capFailEnv : VideoEnv := { baseEnv with capOpens := false }

/-- A job whose frame transform raises on the first frame. -/
def midExcEnv : VideoEnv :=
  { baseEnv with swapFace := fun _ _ _ => .error "swap exploded" }

/-- C8 is violated by the code: when the input cannot be opened the job
reaches the terminal `failed` state but the temporary input file is never
deleted (`os.unlink` only runs after the frame loop, src/api/queue.py
lines 161-165); and when the frame transform raises mid-job the job is
`failed` by `_run` while neither the opened capture nor the opened writer
is released and the temp file is again not deleted. -/
theorem video_job_resource_leak :
    ((procVideo capFailEnv basePayload).tmpDeleted = false
      ∧ (runOne capFailEnv basePayload).status = .failed)
    ∧ ((procVideo { baseEnv with writerOpens := false } basePayload).tmpDeleted = false
      ∧ (runOne { baseEnv with writerOpens := false } basePayload).status = .failed)
    ∧ ((procVideo midExcEnv basePayload).capOpened = true
      ∧ (procVideo midExcEnv basePayload).capReleased = false
      ∧ (procVideo midExcEnv basePayload).writerOpened = true
      ∧ (procVideo midExcEnv basePayload).writerReleased = false
      ∧ (procVideo midExcEnv basePayload).tmpDeleted = false
      ∧ (runOne midExcEnv basePayload).status = .failed) := by
  decide

/-! ### No-face handling -/

/-- A one-frame video in which no face is ever detected. -/
def noFaceEnv : VideoEnv :=
  { baseEnv with getOneFace := fun _ => .ok none, frames := [10], frameCount := 1 }

/-- C9 counterexample: a no-face frame of a video job *does* contribute a
processed unit — the frame is written through and counted, so a one-frame
video with no detectable face ends `done` with `processed_frames = 1`
(the claim's "contributes no processed units" would give 0 and, by the
zero-work rule, a failed job). -/
theorem no_face_frame_counted_cex :
    (runOne noFaceEnv basePayload).processed_frames = 1
    ∧ (runOne noFaceEnv basePayload).status = .done
    ∧ (runOne noFaceEnv basePayload).error = none := by
  decide

/-- C9 amended: when face detection finds no face in a frame of a video
job, that frame is passed through unmodified — still written and counted
as a processed unit — rather than failing the job, and a video of such
frames finishes `done` with every frame counted; for a single-image job,
"no face found" in the source or the target image is a hard rejection
(HTTP 400) raised before any job is created or queued. -/
theorem no_face_video_passthrough_image_rejects :
    (∀ (env : VideoEnv) (p : VideoPayload), p.many_faces = false →
      p.enhance = false → (∀ f : Nat, env.getOneFace f = Except.ok none) →
      (∀ f : Nat, processFrame env p f = Except.ok f)
      ∧ (env.capOpens = true → env.writerOpens = true →
          env.frames.length ≥ 1 →
          runOne env p =
            { status := .done, total_frames := env.frameCount
              processed_frames := env.frames.length, error := none
              result_path := some env.outPath }))
    ∧ (∀ (st : Settings) (r : ImageRequest),
        (check_usage_limit r.user "image" r.session_id r.imageCount st).rejected = false →
        r.sourceSize ≤ st.max_image_bytes → r.targetSize ≤ st.max_image_bytes →
        r.enhance = false → r.sourceDecodes = true → r.targetDecodes = true →
        (r.sourceFace = none → swap_image st r = .error .noFaceSource)
        ∧ (∀ sf, r.sourceFace = some sf → r.many_faces = false →
            r.targetOneFace = none → swap_image st r = .error .noFaceTarget)
        ∧ (∀ sf, r.sourceFace = some sf → r.many_faces = true →
            r.targetManyFaces = [] → swap_image st r = .error .noFaceTarget)) := by
  constructor
  · intro env p hm henh hnf
    have hpf : ∀ f : Nat, processFrame env p f = Except.ok f := by
      intro f
      simp [processFrame, frameFaces, hm, hnf f, henh, Except.map]
    refine ⟨hpf, ?_⟩
    intro hcap hw hne
    exact (runOne_all_frames_ok env p hcap hw (fun f _ => ⟨f, hpf f⟩)).1 hne
  · intro st r hq hs1 hs2 he hd1 hd2
    refine ⟨?_, ?_, ?_⟩
    · intro hsf
      simp [swap_image, hq, Nat.not_lt.mpr hs1, Nat.not_lt.mpr hs2, he,
        hd1, hd2, hsf]
    · intro sf hsf hmf htf
      simp [swap_image, hq, Nat.not_lt.mpr hs1, Nat.not_lt.mpr hs2, he,
        hd1, hd2, hsf, hmf, htf]
    · intro sf hsf hmf htf
      simp [swap_image, hq, Nat.not_lt.mpr hs1, Nat.not_lt.mpr hs2, he,
        hd1, hd2, hsf, hmf, htf]

/-- An image request whose source image contains no detectable face. -/
def noFaceImageReq : ImageRequest where
  user := none
  session_id := some "s"
  imageCount := 0
  sourceSize := 0
  targetSize := 0
  many_faces := false
  enhance := false
  sourceDecodes := true
  targetDecodes := true
  sourceFace := none
  targetImg := 0
  targetOneFace := some 1
  targetManyFaces := []
  swapFace := fun _ _ fr => .ok fr
  enhanceImportOk := true
  enhanceFace := fun x => .ok x
  encodeOk := true

theorem no_face_video_passthrough_image_rejects_witness :
    processFrame noFaceEnv basePayload 10 = Except.ok 10
    ∧ swap_image defaultSettings noFaceImageReq = .error .noFaceSource
    ∧ swap_image defaultSettings
        { noFaceImageReq with sourceFace := some 5, targetOneFace := none } =
        .error .noFaceTarget := by
  refine ⟨?_, ?_, ?_⟩
  · exact (no_face_video_passthrough_image_rejects.1 noFaceEnv basePayload
      rfl rfl (fun _ => rfl)).1 10
  · exact (no_face_video_passthrough_image_rejects.2 defaultSettings
      noFaceImageReq (by decide) (by decide) (by decide) rfl rfl rfl).1 rfl
  · exact ((no_face_video_passthrough_image_rejects.2 defaultSettings
      { noFaceImageReq with sourceFace := some 5, targetOneFace := none }
      (by decide) (by decide) (by decide) rfl rfl rfl).2.1) 5 rfl rfl rfl

/-! ### Priority-queue dequeue order -/

theorem JobItem.lt_iff (a b : JobItem) :
    JobItem.lt a b = true ↔
      (a.priority < b.priority ∨ (a.priority = b.priority ∧ a.seq < b.seq)) := by
  unfold JobItem.lt
  by_cases h : a.priority = b.priority
  · simp [h]
  · simp [h]

theorem JobItem.lt_trans {a b c : JobItem} (h1 : JobItem.lt a b = true)
    (h2 : JobItem.lt b c = true) : JobItem.lt a c = true := by
  rw [JobItem.lt_iff] at h1 h2 ⊢
  rcases h1 with h1 | ⟨h1, h1'⟩ <;> rcases h2 with h2 | ⟨h2, h2'⟩ <;> omega

theorem JobItem.lt_connex {a b : JobItem} (h : a.seq ≠ b.seq) :
    JobItem.lt a b = true ∨ JobItem.lt b a = true := by
  rw [JobItem.lt_iff, JobItem.lt_iff]
  omega

theorem popMin_spec : ∀ (l : List JobItem),
    l.Pairwise (fun a b => a.seq ≠ b.seq) →
    ∀ (m : JobItem) (rest : List JobItem), popMin l = some (m, rest) →
      (m :: rest).Perm l ∧ ∀ y ∈ rest, JobItem.lt m y = true := by
  intro l
  induction l with
  | nil => intro _ m rest h; simp [popMin] at h
  | cons x xs ih =>
      intro hpw m rest h
      have hx : ∀ y ∈ xs, x.seq ≠ y.seq := (List.pairwise_cons.mp hpw).1
      have hpw_xs : xs.Pairwise (fun a b => a.seq ≠ b.seq) :=
        (List.pairwise_cons.mp hpw).2
      simp only [popMin] at h
      cases hxs : popMin xs with
      | none =>
          rw [hxs] at h
          cases xs with
          | nil =>
              simp only [Option.some.injEq, Prod.mk.injEq] at h
              obtain ⟨rfl, rfl⟩ := h
              exact ⟨List.Perm.refl _, fun y hy => absurd hy (List.not_mem_nil y)⟩
          | cons y ys => exact absurd hxs (popMin_ne_none y ys)
      | some p =>
          obtain ⟨m', rest'⟩ := p
          rw [hxs] at h
          dsimp only at h
          obtain ⟨hperm', hmin'⟩ := ih hpw_xs m' rest' hxs
          have hm'xs : m' ∈ xs := hperm'.subset (List.mem_cons_self m' rest')
          by_cases hlt : JobItem.lt m' x = true
          · rw [if_pos hlt] at h
            simp only [Option.some.injEq, Prod.mk.injEq] at h
            obtain ⟨rfl, rfl⟩ := h
            constructor
            · exact (List.Perm.swap x m' rest').trans (List.Perm.cons x hperm')
            · intro y hy
              rcases List.mem_cons.mp hy with rfl | hy
              · exact hlt
              · exact hmin' y hy
          · rw [if_neg hlt] at h
            simp only [Option.some.injEq, Prod.mk.injEq] at h
            obtain ⟨rfl, rfl⟩ := h
            have hxm' : JobItem.lt x m' = true := by
              rcases JobItem.lt_connex (hx m' hm'xs) with hc | hc
              · exact hc
              · exact absurd hc hlt
            constructor
            · exact List.Perm.cons x hperm'
            · intro y hy
              rcases List.mem_cons.mp hy with rfl | hy
              · exact hxm'
              · exact JobItem.lt_trans hxm' (hmin' y hy)

theorem drain_eq_nil {l : List JobItem} (h : popMin l = none) :
    drain l = [] := by
  rw [drain]
  split
  · rfl
  · next m rest heq =>
      rw [h] at heq
      cases heq

theorem drain_eq_cons {l : List JobItem} {m : JobItem} {rest : List JobItem}
    (h : popMin l = some (m, rest)) : drain l = m :: drain rest := by
  rw [drain]
  split
  · next heq =>
      rw [h] at heq
      cases heq
  · next m2 rest2 heq =>
      rw [h] at heq
      simp only [Option.some.injEq, Prod.mk.injEq] at heq
      obtain ⟨rfl, rfl⟩ := heq
      rfl

theorem drain_spec : ∀ (k : Nat) (l : List JobItem), l.length ≤ k →
    l.Pairwise (fun a b => a.seq ≠ b.seq) →
    (drain l).Perm l ∧ (drain l).Pairwise (fun a b => JobItem.lt a b = true) := by
  intro k
  induction k with
  | zero =>
      intro l hl _
      have hnil : l = [] := List.length_eq_zero.mp (Nat.le_zero.mp hl)
      subst hnil
      rw [drain_eq_nil (show popMin [] = none from rfl)]
      exact ⟨List.Perm.refl _, List.Pairwise.nil⟩
  | succ k ih =>
      intro l hl hpw
      cases hpop : popMin l with
      | none =>
          cases l with
          | nil =>
              rw [drain_eq_nil (show popMin [] = none from rfl)]
              exact ⟨List.Perm.refl _, List.Pairwise.nil⟩
          | cons y ys => exact absurd hpop (popMin_ne_none y ys)
      | some p =>
          obtain ⟨m, rest⟩ := p
          obtain ⟨hperm, hmin⟩ := popMin_spec l hpw m rest hpop
          have hdr : drain l = m :: drain rest := drain_eq_cons hpop
          have hlen : rest.length ≤ k := by
            have := popMin_length hpop
            omega
          have hrest_pw : rest.Pairwise (fun a b => a.seq ≠ b.seq) := by
            have hsym : ∀ {a b : JobItem}, a.seq ≠ b.seq → b.seq ≠ a.seq :=
              fun h e => h e.symm
            exact ((hperm.pairwise_iff hsym).mpr hpw).of_cons
          obtain ⟨ihp, ihs⟩ := ih rest hlen hrest_pw
          rw [hdr]
          constructor
          · exact (List.Perm.cons m ihp).trans hperm
          · refine List.pairwise_cons.mpr ⟨?_, ihs⟩
            intro y hy
            exact hmin y (ihp.subset hy)

/-- C1: `_JobItem.__lt__` is exactly lexicographic on (priority, sequence),
and the worker's repeated `PriorityQueue.get` dequeues any queue content
(with the distinct sequence numbers `enqueue` guarantees) in that
lexicographic order: it is a permutation of the queued jobs in which every
earlier-dequeued job compares strictly below every later one — so no
priority-1 job starts while any queued priority-0 job exists, and
equal-priority jobs run in admission order. -/
theorem worker_dequeue_lex_order :
    (∀ a b : JobItem, JobItem.lt a b = true ↔
      (a.priority < b.priority ∨ (a.priority = b.priority ∧ a.seq < b.seq)))
    ∧ (∀ q : List JobItem, q.Pairwise (fun a b => a.seq ≠ b.seq) →
        (drain q).Perm q
        ∧ (drain q).Pairwise (fun a b => JobItem.lt a b = true)
        ∧ ∀ (i j : Nat) (hi : i < (drain q).length) (hj : j < (drain q).length),
            i < j →
            ((drain q).get ⟨i, hi⟩).priority < ((drain q).get ⟨j, hj⟩).priority
            ∨ (((drain q).get ⟨i, hi⟩).priority = ((drain q).get ⟨j, hj⟩).priority
                ∧ ((drain q).get ⟨i, hi⟩).seq < ((drain q).get ⟨j, hj⟩).seq)) := by
  refine ⟨JobItem.lt_iff, ?_⟩
  intro q hpw
  obtain ⟨hperm, hsort⟩ := drain_spec q.length q (le_refl _) hpw
  refine ⟨hperm, hsort, ?_⟩
  intro i j hi hj hij
  have := List.pairwise_iff_get.mp hsort ⟨i, hi⟩ ⟨j, hj⟩ hij
  exact (JobItem.lt_iff _ _).mp this

theorem worker_dequeue_lex_order_witness :
    JobItem.lt ⟨0, 2, "b"⟩ ⟨1, 1, "a"⟩ = true
    ∧ (drain [⟨1, 1, "a"⟩, ⟨0, 2, "b"⟩, ⟨1, 3, "c"⟩]).Perm
        [⟨1, 1, "a"⟩, ⟨0, 2, "b"⟩, ⟨1, 3, "c"⟩]
    ∧ (drain [⟨1, 1, "a"⟩, ⟨0, 2, "b"⟩, ⟨1, 3, "c"⟩]).Pairwise
        (fun a b => JobItem.lt a b = true) := by
  have h := worker_dequeue_lex_order
  refine ⟨?_, ?_, ?_⟩
  · exact (h.1 ⟨0, 2, "b"⟩ ⟨1, 1, "a"⟩).mpr (Or.inl (by decide))
  · exact (h.2 [⟨1, 1, "a"⟩, ⟨0, 2, "b"⟩, ⟨1, 3, "c"⟩] (by decide)).1
  · exact (h.2 [⟨1, 1, "a"⟩, ⟨0, 2, "b"⟩, ⟨1, 3, "c"⟩] (by decide)).2.1

end DLC
